import Mathlib

/-!
# Verification of the station-output shift bucketing / aggregation core

Shallow embedding of the windowing, aggregation and correction logic of
`app.py` and `admin_app.py`.

Modelling conventions:

* Instants are integers counting **minutes**.  Local instants are minutes
  since local midnight of the day under consideration; UTC instants are
  related to local instants by a fixed offset `off : Int`
  (`local = utc + off`).  `America/Chicago` is modelled as a fixed-offset
  zone; daylight-saving transitions are an explicit non-goal of the spec
  (§4.1), and on any single day the offset is constant.
* The SQL tables are modelled as lists of records.  The autoincrement `id`
  primary key serves only as the handle by which the ORM deletes a single
  row, so it is not represented as a field: deleting one row is modelled by
  removing one occurrence from the list (`List.erase` / `List.diff`), which
  has exactly the same multiset semantics.
* Python `//` and `%` agree with Lean's Euclidean `Int` division for the
  operands that occur here (all divisions happen on non-negative values).
-/

/-! ## Configuration constants (`app.py`) -/

def SHIFT_START_HOUR : Int := 5
def SHIFT_END_HOUR : Int := 19

def REASONS : List String := ["Bathroom", "Break", "System Slow"]

/-! ## Data model (`app.py`, classes `Event` and `ReasonEvent`) -/

/-- A row of the `Event` table: `kind` is `order | reject | muda`;
`ts_utc` is the UTC timestamp in minutes. -/
structure Event where
  station : String
  role : String
  stamp : String
  kind : String
  ts_utc : Int
deriving DecidableEq

/-- A row of the `ReasonEvent` table: `reason` is
`Bathroom | Break | System Slow`. -/
structure ReasonEvent where
  station : String
  role : String
  stamp : String
  reason : String
  ts_utc : Int
deriving DecidableEq

/-! ## Clock / window calculator (`app.py`) -/

/-- `shift_bounds_local(day)`: local start/end instants of the shift, in
minutes since local midnight (`datetime.combine(day, time(hour=H))`). -/
def shift_bounds_local : Int × Int :=
  (60 * SHIFT_START_HOUR, 60 * SHIFT_END_HOUR)

def shift_start_loc : Int := shift_bounds_local.1
def shift_end_loc : Int := shift_bounds_local.2

/-- `fmt_ampm`: `strftime("%I:%M %p").lstrip("0")` of a local instant
(minutes since local midnight). -/
def fmt_ampm (t : Int) : String :=
  let m := t.toNat
  let h := m / 60 % 24
  let mi := m % 60
  let h12 := (h + 11) % 12 + 1
  toString h12 ++ ":" ++ (if mi < 10 then "0" else "") ++ toString mi
    ++ " " ++ (if h < 12 then "AM" else "PM")

/-- The label-building loop of `fixed_hour_labels`:
`while cur < end: labels.append(f"{fmt_ampm(cur)} – {fmt_ampm(nxt)}"); cur = nxt`. -/
def labelsLoop (cur endT : Int) : List String :=
  if cur < endT then
    (fmt_ampm cur ++ " – " ++ fmt_ampm (cur + 60)) :: labelsLoop (cur + 60) endT
  else []
termination_by (endT - cur).toNat
decreasing_by omega

/-- `fixed_hour_labels(day)`. -/
def fixed_hour_labels : List String :=
  labelsLoop shift_start_loc shift_end_loc

/-- The `(cur, nxt)` hour windows the loop of `fixed_hour_labels` traverses
(materialised so the bucket geometry can be stated). -/
def windowsLoop (cur endT : Int) : List (Int × Int) :=
  if cur < endT then (cur, cur + 60) :: windowsLoop (cur + 60) endT
  else []
termination_by (endT - cur).toNat
decreasing_by omega

def hour_windows : List (Int × Int) :=
  windowsLoop shift_start_loc shift_end_loc

/-- `utc_from_local`: with a fixed offset `off` (`local = utc + off`). -/
def utc_from_local (off : Int) (l : Int) : Int := l - off

/-- `ts.replace(tzinfo=UTC).astimezone(TZ)` under the fixed offset. -/
def local_of_utc (off : Int) (u : Int) : Int := u + off

/-! ### Evaluation of the window calculator -/

theorem labelsLoop_step {cur endT : Int} (h : cur < endT) :
    labelsLoop cur endT =
      (fmt_ampm cur ++ " – " ++ fmt_ampm (cur + 60)) :: labelsLoop (cur + 60) endT := by
  rw [labelsLoop]; simp [h]

theorem labelsLoop_stop {cur endT : Int} (h : ¬ cur < endT) :
    labelsLoop cur endT = [] := by
  rw [labelsLoop]; simp [h]

theorem windowsLoop_step {cur endT : Int} (h : cur < endT) :
    windowsLoop cur endT = (cur, cur + 60) :: windowsLoop (cur + 60) endT := by
  rw [windowsLoop]; simp [h]

theorem windowsLoop_stop {cur endT : Int} (h : ¬ cur < endT) :
    windowsLoop cur endT = [] := by
  rw [windowsLoop]; simp [h]

theorem hour_windows_eval :
    hour_windows =
      [(300, 360), (360, 420), (420, 480), (480, 540), (540, 600), (600, 660),
       (660, 720), (720, 780), (780, 840), (840, 900), (900, 960), (960, 1020),
       (1020, 1080), (1080, 1140)] := by
  show windowsLoop 300 1140 = _
  rw [windowsLoop_step (by norm_num), windowsLoop_step (by norm_num),
      windowsLoop_step (by norm_num), windowsLoop_step (by norm_num),
      windowsLoop_step (by norm_num), windowsLoop_step (by norm_num),
      windowsLoop_step (by norm_num), windowsLoop_step (by norm_num),
      windowsLoop_step (by norm_num), windowsLoop_step (by norm_num),
      windowsLoop_step (by norm_num), windowsLoop_step (by norm_num),
      windowsLoop_step (by norm_num), windowsLoop_step (by norm_num),
      windowsLoop_stop (by norm_num)]
  norm_num

theorem fixed_hour_labels_eval :
    fixed_hour_labels =
      ["5:00 AM – 6:00 AM", "6:00 AM – 7:00 AM", "7:00 AM – 8:00 AM",
       "8:00 AM – 9:00 AM", "9:00 AM – 10:00 AM", "10:00 AM – 11:00 AM",
       "11:00 AM – 12:00 PM", "12:00 PM – 1:00 PM", "1:00 PM – 2:00 PM",
       "2:00 PM – 3:00 PM", "3:00 PM – 4:00 PM", "4:00 PM – 5:00 PM",
       "5:00 PM – 6:00 PM", "6:00 PM – 7:00 PM"] := by
  show labelsLoop 300 1140 = _
  rw [labelsLoop_step (by norm_num), labelsLoop_step (by norm_num),
      labelsLoop_step (by norm_num), labelsLoop_step (by norm_num),
      labelsLoop_step (by norm_num), labelsLoop_step (by norm_num),
      labelsLoop_step (by norm_num), labelsLoop_step (by norm_num),
      labelsLoop_step (by norm_num), labelsLoop_step (by norm_num),
      labelsLoop_step (by norm_num), labelsLoop_step (by norm_num),
      labelsLoop_step (by norm_num), labelsLoop_step (by norm_num),
      labelsLoop_stop (by norm_num)]
  rfl

theorem fixed_hour_labels_length : fixed_hour_labels.length = 14 := by
  rw [fixed_hour_labels_eval]; rfl

/-! ## Aggregator (`app.py`, `today_rows_for`) -/

/-- The `Event.query.filter(...)` of `today_rows_for`: key match plus the
UTC shift range `[start_utc, end_utc)`. -/
def evFilter (off : Int) (station role stamp : String) (e : Event) : Bool :=
  e.station == station && e.role == role && e.stamp == stamp &&
    decide (utc_from_local off shift_start_loc ≤ e.ts_utc) &&
    decide (e.ts_utc < utc_from_local off shift_end_loc)

/-- The `ReasonEvent.query.filter(...)` of `today_rows_for`. -/
def rsFilter (off : Int) (station role stamp : String) (r : ReasonEvent) : Bool :=
  r.station == station && r.role == role && r.stamp == stamp &&
    decide (utc_from_local off shift_start_loc ≤ r.ts_utc) &&
    decide (r.ts_utc < utc_from_local off shift_end_loc)

/-- `b[idx] += 1` on a Python list of counters (the guard in the loop keeps
`idx` in range; out-of-range indices are proved unreachable below). -/
def bump (l : List Nat) (i : Nat) : List Nat :=
  l.set i (l.getD i 0 + 1)

/-- One iteration of the `for e in evs:` loop of `today_rows_for`, acting on
the pair of accumulators `(b_orders, b_exc)`. -/
def accCounts (off : Int) (acc : List Nat × List Nat) (e : Event) :
    List Nat × List Nat :=
  let local_dt := local_of_utc off e.ts_utc
  if shift_start_loc ≤ local_dt ∧ local_dt < shift_end_loc then
    let idx := (local_dt - shift_start_loc).toNat / 60
    if e.kind == "order" then (bump acc.1 idx, acc.2)
    else if e.kind == "reject" || e.kind == "muda" then (acc.1, bump acc.2 idx)
    else acc
  else acc

/-- One iteration of the `for r in rs:` loop of `today_rows_for`, acting on
`(b_bath, b_break, b_sys)`. -/
def accReasons (off : Int) (acc : List Nat × List Nat × List Nat) (r : ReasonEvent) :
    List Nat × List Nat × List Nat :=
  let local_dt := local_of_utc off r.ts_utc
  if shift_start_loc ≤ local_dt ∧ local_dt < shift_end_loc then
    let idx := (local_dt - shift_start_loc).toNat / 60
    if r.reason == "Bathroom" then (bump acc.1 idx, acc.2.1, acc.2.2)
    else if r.reason == "Break" then (acc.1, bump acc.2.1 idx, acc.2.2)
    else if r.reason == "System Slow" then (acc.1, acc.2.1, bump acc.2.2 idx)
    else acc
  else acc

/-- The filter of the second (`hour_order_count`) query of `today_rows_for`:
order-kind, key match, `ts_utc >= utc_from_local(hour_start_loc)`, with no
upper bound. -/
def hourCountFilter (off : Int) (hour_start_loc : Int) (station role stamp : String)
    (e : Event) : Bool :=
  e.kind == "order" && e.station == station && e.role == role && e.stamp == stamp &&
    decide (utc_from_local off hour_start_loc ≤ e.ts_utc)

/-- `today_rows_for(station, role, stamp)`: returns the 14 rows
`(label, orders, exceptions, bathroom, break, system_slow)` and the live
`hour_order_count`.  `now` is the current local wall clock in minutes since
local midnight; `now.replace(minute=0, second=0, microsecond=0)` becomes
`60 * (now / 60)`. -/
def today_rows_for (off : Int) (now : Int) (station role stamp : String)
    (events : List Event) (reasons : List ReasonEvent) :
    List (String × Nat × Nat × Nat × Nat × Nat) × Nat :=
  let labels := fixed_hour_labels
  let zeros : List Nat := List.replicate labels.length 0
  let evs := events.filter (evFilter off station role stamp)
  let ob := evs.foldl (accCounts off) (zeros, zeros)
  let rs := reasons.filter (rsFilter off station role stamp)
  let bbs := rs.foldl (accReasons off) (zeros, zeros, zeros)
  let hour_start_loc := 60 * (now / 60)
  let hour_order_count :=
    events.countP (hourCountFilter off hour_start_loc station role stamp)
  let rows := (List.range labels.length).map fun i =>
    (labels.getD i "", ob.1.getD i 0, ob.2.getD i 0,
     bbs.1.getD i 0, bbs.2.1.getD i 0, bbs.2.2.getD i 0)
  (rows, hour_order_count)

/-! ## Manager panel (`admin_app.py`, `adjust_hour`) -/

/-- Insertion step for `order_by(ts_utc.desc())`: newest first. -/
def insertDescBy {α : Type} (f : α → Int) (a : α) : List α → List α
  | [] => [a]
  | b :: l => if f b < f a then a :: b :: l else b :: insertDescBy f a l

/-- `order_by(ts_utc.desc())` on a query result, as an insertion sort. -/
def sortDescBy {α : Type} (f : α → Int) : List α → List α
  | [] => []
  | a :: l => insertDescBy f a (sortDescBy f l)

/-- `kind.startswith("reason:")`, modelled on the character list (the
byte-position loop of `String.startsWith` does not reduce in the kernel;
this form is extensionally the same test). -/
def startsWithReason (kind : String) : Bool :=
  kind.toList.take 7 == "reason:".toList

/-- `max(1, min(99, int(count_s)))`. -/
def clampCount (c : Int) : Int := max 1 (min 99 c)

/-- Outcome of the `/admin/adjust` route.  `redirect` is the silent no-op
`redirect(url_for("admin.panel"))` (no store access, stores unchanged);
`panel events reasons msg` re-renders the panel after committing the given
store states with the given message. -/
inductive AdjustOutcome where
  | redirect
  | panel (events : List Event) (reasons : List ReasonEvent) (msg : String)
deriving DecidableEq

/-- The filter of the admin remove query on `Event` (key, kind, and the
selected hour's UTC window). -/
def adjEvMatch (station role stamp kind : String) (start_utc end_utc : Int)
    (e : Event) : Bool :=
  e.station == station && e.role == role && e.stamp == stamp && e.kind == kind &&
    decide (start_utc ≤ e.ts_utc) && decide (e.ts_utc < end_utc)

/-- The filter of the admin remove query on `ReasonEvent`. -/
def adjRsMatch (station role stamp reason : String) (start_utc end_utc : Int)
    (r : ReasonEvent) : Bool :=
  r.station == station && r.role == role && r.stamp == stamp && r.reason == reason &&
    decide (start_utc ≤ r.ts_utc) && decide (r.ts_utc < end_utc)

/-- `adjust_hour` (`/admin/adjust`): validate, resolve the hour window of
today's shift, then add or remove `count` records of `kind` in it.

* `authed` models `_is_authed()`; an unauthenticated request redirects.
* `count_p` / `hour_p` model the `int(...)` parses of the `count` and
  `hour_ix` form fields (`none` = `ValueError`, caught and redirected).
* `q.limit(count).all()` followed by per-row `session.delete` is modelled
  as removing the first `count` elements of the descending-sorted matches
  (one list occurrence per deleted row: `List.diff`).
* the add loop inserts `count` records with `ts_utc = start_utc + 1` minute. -/
def adjust_hour (off : Int) (authed : Bool) (station role stamp kind action : String)
    (count_p hour_p : Option Int) (events : List Event) (reasons : List ReasonEvent) :
    AdjustOutcome :=
  if !authed then .redirect
  else match count_p, hour_p with
  | none, _ => .redirect
  | some _, none => .redirect
  | some c, some hour_ix =>
    let count := clampCount c
    if !(station != "" && role != "" && stamp != "" && stamp.length == 4
          && stamp.toList.all Char.isDigit) then .redirect
    else if !(kind == "order" || kind == "reject" || kind == "muda"
          || startsWithReason kind) then .redirect
    else if !(action == "add" || action == "remove") then .redirect
    else
      let labels := fixed_hour_labels
      if !(decide (0 ≤ hour_ix) && decide (hour_ix < labels.length)) then .redirect
      else
        let hour_start_loc := shift_start_loc + 60 * hour_ix
        let hour_end_loc := hour_start_loc + 60
        let start_utc := utc_from_local off hour_start_loc
        let end_utc := utc_from_local off hour_end_loc
        let lbl := labels.getD hour_ix.toNat ""
        if startsWithReason kind then
          -- kind.split(":", 1)[1]
          let reason := kind.drop 7
          if action == "remove" then
            let victims := (sortDescBy (fun r => r.ts_utc)
                (reasons.filter (adjRsMatch station role stamp reason start_utc end_utc))).take
                count.toNat
            let msg := if victims.length != 0 then
                "Removed " ++ toString victims.length ++ " reason(s) '" ++ reason
                  ++ "' in " ++ lbl ++ "."
              else "No change."
            .panel events (reasons.diff victims) msg
          else
            let added := List.replicate count.toNat
              (ReasonEvent.mk station role stamp reason (start_utc + 1))
            .panel events (reasons ++ added)
              ("Added " ++ toString count.toNat ++ " reason(s) '" ++ reason
                ++ "' in " ++ lbl ++ ".")
        else
          if action == "remove" then
            let victims := (sortDescBy (fun e => e.ts_utc)
                (events.filter (adjEvMatch station role stamp kind start_utc end_utc))).take
                count.toNat
            let msg := if victims.length != 0 then
                "Removed " ++ toString victims.length ++ " " ++ kind ++ "(s) in "
                  ++ lbl ++ "."
              else "No change."
            .panel (events.diff victims) reasons msg
          else
            let added := List.replicate count.toNat
              (Event.mk station role stamp kind (start_utc + 1))
            .panel (events ++ added) reasons
              ("Added " ++ toString count.toNat ++ " " ++ kind ++ "(s) in " ++ lbl ++ ".")

/-! ## Delete-latest (spec §4.4) -/

/-- The match filter of Delete-latest: key, kind, and today's full shift
window in UTC. -/
def dlMatch (off : Int) (station role stamp kind : String) (e : Event) : Bool :=
  e.station == station && e.role == role && e.stamp == stamp && e.kind == kind &&
    decide (utc_from_local off shift_start_loc ≤ e.ts_utc) &&
    decide (e.ts_utc < utc_from_local off shift_end_loc)

/-- Modelled from the spec: the repository's sources under `src/` contain no
Delete-latest endpoint (the admin panel only implements Adjust-hour), so this
follows §4.4's contract word for word: resolve today's shift window, query
matching records ordered by timestamp descending within the window, delete at
most the single newest match, report "nothing found" (`none`) if none, and
return a preview of the deleted record. -/
def delete_latest (off : Int) (station role stamp kind : String)
    (events : List Event) : List Event × Option Event :=
  match sortDescBy (fun e => e.ts_utc)
      (events.filter (dlMatch off station role stamp kind)) with
  | [] => (events, none)
  | e :: _ => (events.erase e, some e)

/-! ## C1: geometry of the hour buckets -/

/-- C1: for every calendar day, the hour buckets produced by the Window
Calculator (`fixed_hour_labels` over `shift_bounds_local`) form an ordered,
contiguous, non-overlapping sequence of exactly one-hour windows that exactly
covers `[shift_start, shift_end)`, and the bucket count equals
`shift_end_hour - shift_start_hour` (14 for the configured 05:00-19:00
shift).  The windows traversed by the label loop are `hour_windows`; the
`i`-th window is exactly `[start + 60*i, start + 60*(i+1))` (hence ordered,
contiguous, pairwise disjoint, each one hour long), every instant of the
shift lies in exactly one window, and the labels are in one-to-one
correspondence with the windows. -/
theorem C1_hour_buckets :
    fixed_hour_labels.length = (SHIFT_END_HOUR - SHIFT_START_HOUR).toNat ∧
    (SHIFT_END_HOUR - SHIFT_START_HOUR).toNat = 14 ∧
    hour_windows.length = fixed_hour_labels.length ∧
    fixed_hour_labels
      = hour_windows.map (fun w => fmt_ampm w.1 ++ " – " ++ fmt_ampm w.2) ∧
    (∀ i, i < hour_windows.length →
        hour_windows.getD i (0, 0)
          = (shift_start_loc + 60 * (i : Int), shift_start_loc + 60 * (i : Int) + 60)) ∧
    (∀ t : Int, (shift_start_loc ≤ t ∧ t < shift_end_loc) ↔
        ∃ i, i < hour_windows.length ∧
          (hour_windows.getD i (0, 0)).1 ≤ t ∧ t < (hour_windows.getD i (0, 0)).2) ∧
    (∀ (i j : Nat), i < hour_windows.length → j < hour_windows.length →
        ∀ t : Int,
        (hour_windows.getD i (0, 0)).1 ≤ t → t < (hour_windows.getD i (0, 0)).2 →
        (hour_windows.getD j (0, 0)).1 ≤ t → t < (hour_windows.getD j (0, 0)).2 → i = j) := by
  have hlen : hour_windows.length = 14 := by rw [hour_windows_eval]; rfl
  have hform : ∀ i, i < hour_windows.length →
      hour_windows.getD i (0, 0)
        = (shift_start_loc + 60 * (i : Int), shift_start_loc + 60 * (i : Int) + 60) := by
    simp only [hour_windows_eval]
    decide
  refine ⟨?_, by decide, ?_, ?_, hform, ?_, ?_⟩
  · rw [fixed_hour_labels_length]; decide
  · rw [hlen, fixed_hour_labels_length]
  · rw [fixed_hour_labels_eval, hour_windows_eval]; rfl
  · intro t
    have hs : shift_start_loc = 300 := by decide
    have he : shift_end_loc = 1140 := by decide
    constructor
    · rintro ⟨h1, h2⟩
      refine ⟨((t - 300).toNat) / 60, ?_, ?_⟩
      · rw [hlen]; omega
      · rw [hform _ (by rw [hlen]; omega)]
        rw [hs] at h1 ⊢
        rw [he] at h2
        constructor <;> · dsimp only; push_cast; omega
    · rintro ⟨i, hi, h1, h2⟩
      rw [hform i hi] at h1 h2
      rw [hlen] at hi
      rw [hs, he]
      rw [hs] at h1 h2
      dsimp only at h1 h2
      constructor <;> omega
  · intro i j hi hj t h1 h2 h3 h4
    rw [hform i hi] at h1 h2
    rw [hform j hj] at h3 h4
    dsimp only at h1 h2 h3 h4
    omega

theorem C1_hour_buckets_witness :
    hour_windows.getD 3 (0, 0)
      = (shift_start_loc + 60 * ((3 : Nat) : Int),
         shift_start_loc + 60 * ((3 : Nat) : Int) + 60) :=
  C1_hour_buckets.2.2.2.2.1 3 (by rw [hour_windows_eval]; decide)

/-! ## List machinery: counter bumps, descending sort, limited deletion -/

theorem bump_cons_zero (a : Nat) (l : List Nat) : bump (a :: l) 0 = (a + 1) :: l := by
  simp [bump]

theorem bump_cons_succ (a : Nat) (l : List Nat) (i : Nat) :
    bump (a :: l) (i + 1) = a :: bump l i := by
  simp [bump]

theorem length_bump (l : List Nat) (i : Nat) : (bump l i).length = l.length := by
  simp [bump]

theorem getD_bump_self : ∀ (l : List Nat) (i : Nat), i < l.length →
    (bump l i).getD i 0 = l.getD i 0 + 1
  | [], i, h => by simp at h
  | a :: l, 0, _ => by simp [bump_cons_zero]
  | a :: l, i + 1, h => by
    rw [bump_cons_succ]
    simpa using getD_bump_self l i (by simpa using h)

theorem getD_bump_ne : ∀ (l : List Nat) (i j : Nat), i ≠ j →
    (bump l i).getD j 0 = l.getD j 0
  | [], _, _, _ => by simp [bump]
  | a :: l, 0, 0, h => absurd rfl h
  | a :: l, 0, j + 1, _ => by simp [bump_cons_zero]
  | a :: l, i + 1, 0, _ => by simp [bump_cons_succ]
  | a :: l, i + 1, j + 1, h => by
    rw [bump_cons_succ]
    simpa using getD_bump_ne l i j (fun hh => h (by omega))

theorem sum_bump : ∀ (l : List Nat) (i : Nat), i < l.length →
    (bump l i).sum = l.sum + 1
  | [], i, h => by simp at h
  | a :: l, 0, _ => by simp [bump_cons_zero]; omega
  | a :: l, i + 1, h => by
    rw [bump_cons_succ]
    simp only [List.sum_cons, sum_bump l i (by simpa using h)]
    omega

theorem insertDescBy_perm {α : Type} (f : α → Int) (a : α) :
    ∀ l : List α, List.Perm (insertDescBy f a l) (a :: l)
  | [] => .refl _
  | b :: l => by
    simp only [insertDescBy]
    split
    · exact .refl _
    · exact ((insertDescBy_perm f a l).cons b).trans (List.Perm.swap a b l)

theorem sortDescBy_perm {α : Type} (f : α → Int) :
    ∀ l : List α, List.Perm (sortDescBy f l) l
  | [] => .refl _
  | a :: l => (insertDescBy_perm f a _).trans ((sortDescBy_perm f l).cons a)

/-- The records an `order_by(desc).limit(n)` delete selects form a
sub-permutation of the table. -/
theorem takeNewest_subperm {α : Type} (f : α → Int) (p : α → Bool) (n : Nat)
    (l : List α) : List.Subperm ((sortDescBy f (l.filter p)).take n) l :=
  ((List.take_sublist _ _).subperm.trans
      (sortDescBy_perm f _).subperm).trans (l.filter_sublist).subperm

theorem takeNewest_length {α : Type} (f : α → Int) (p : α → Bool) (n : Nat)
    (l : List α) :
    ((sortDescBy f (l.filter p)).take n).length = min n (l.countP p) := by
  rw [List.length_take, (sortDescBy_perm f _).length_eq, List.countP_eq_length_filter]

theorem takeNewest_prop {α : Type} (f : α → Int) (p : α → Bool) (n : Nat)
    (l : List α) : ∀ x ∈ (sortDescBy f (l.filter p)).take n, p x := by
  intro x hx
  have hx2 : x ∈ sortDescBy f (l.filter p) := (List.take_sublist _ _).subset hx
  exact List.of_mem_filter ((sortDescBy_perm f _).mem_iff.1 hx2)

/-- Deleting a sub-permutation `v` from a table `l` subtracts the counts. -/
theorem countP_diff_subperm {α : Type} [DecidableEq α] (p : α → Bool)
    {v l : List α} (h : List.Subperm v l) :
    (l.diff v).countP p = l.countP p - v.countP p := by
  have hle : (v : Multiset α) ≤ (l : Multiset α) := Multiset.coe_le.2 h
  have hsub := Multiset.countP_sub (fun a => p a = true) hle
  rw [Multiset.coe_sub] at hsub
  simpa using hsub

theorem length_diff_subperm {α : Type} [DecidableEq α] {v l : List α}
    (h : List.Subperm v l) : (l.diff v).length = l.length - v.length := by
  have hle : (v : Multiset α) ≤ (l : Multiset α) := Multiset.coe_le.2 h
  have hsub := Multiset.card_sub hle
  rw [Multiset.coe_sub] at hsub
  simpa [Multiset.coe_card] using hsub

/-! ## Aggregator lemmas -/

/-- The local-time guard of the accumulation loops
(`shift_start_loc <= local_dt < shift_end_loc`), on a UTC timestamp. -/
def inShiftLocal (off : Int) (ts : Int) : Bool :=
  decide (shift_start_loc ≤ local_of_utc off ts) &&
    decide (local_of_utc off ts < shift_end_loc)

/-- `idx = int((local_dt - shift_start_loc).total_seconds() // 3600)`. -/
def bucketIdx (off : Int) (ts : Int) : Nat :=
  (local_of_utc off ts - shift_start_loc).toNat / 60

/-- Membership in the "exceptions" (reject/muda) merged column. -/
def isExcKind (k : String) : Bool := k == "reject" || k == "muda"

/-- An event counted in the orders cell of bucket `i`. -/
def cellOrder (off : Int) (i : Nat) (e : Event) : Bool :=
  inShiftLocal off e.ts_utc && (bucketIdx off e.ts_utc == i) && (e.kind == "order")

/-- An event counted in the exceptions cell of bucket `i`. -/
def cellExc (off : Int) (i : Nat) (e : Event) : Bool :=
  inShiftLocal off e.ts_utc && (bucketIdx off e.ts_utc == i) && isExcKind e.kind

/-- An order event counted somewhere in the bucket table. -/
def shiftOrder (off : Int) (e : Event) : Bool :=
  inShiftLocal off e.ts_utc && (e.kind == "order")

/-- A reject/muda event counted somewhere in the bucket table. -/
def shiftExc (off : Int) (e : Event) : Bool :=
  inShiftLocal off e.ts_utc && isExcKind e.kind

theorem countP_congr_list {α : Type} {p q : α → Bool} :
    ∀ {l : List α}, (∀ a ∈ l, p a = q a) → l.countP p = l.countP q
  | [], _ => rfl
  | a :: l, h => by
    rw [List.countP_cons, List.countP_cons, h a (by simp),
      countP_congr_list (fun x hx => h x (by simp [hx]))]

/-- Any timestamp passing the local guard gets a bucket index below 14. -/
theorem bucketIdx_lt (off ts : Int) (h : inShiftLocal off ts = true) :
    bucketIdx off ts < 14 := by
  simp only [inShiftLocal, Bool.and_eq_true, decide_eq_true_eq] at h
  have hs : shift_start_loc = 300 := by decide
  have he : shift_end_loc = 1140 := by decide
  rw [hs] at h; rw [he] at h
  simp only [bucketIdx, hs]
  omega

theorem accCounts_len (off : Int) (bo be : List Nat) (e : Event) :
    (accCounts off (bo, be) e).1.length = bo.length ∧
      (accCounts off (bo, be) e).2.length = be.length := by
  simp only [accCounts]
  split
  · split
    · exact ⟨length_bump bo _, rfl⟩
    · split
      · exact ⟨rfl, length_bump be _⟩
      · exact ⟨rfl, rfl⟩
  · exact ⟨rfl, rfl⟩

theorem accCounts_getD (off : Int) (bo be : List Nat) (e : Event) (i : Nat)
    (h1 : i < bo.length) (h2 : i < be.length) :
    (accCounts off (bo, be) e).1.getD i 0
        = bo.getD i 0 + (if cellOrder off i e then 1 else 0) ∧
      (accCounts off (bo, be) e).2.getD i 0
        = be.getD i 0 + (if cellExc off i e then 1 else 0) := by
  by_cases hg : shift_start_loc ≤ local_of_utc off e.ts_utc ∧
      local_of_utc off e.ts_utc < shift_end_loc
  · have hgb : inShiftLocal off e.ts_utc = true := by
      simp [inShiftLocal, hg.1, hg.2]
    by_cases ho : e.kind == "order"
    · have hacc : accCounts off (bo, be) e = (bump bo (bucketIdx off e.ts_utc), be) := by
        simp only [accCounts]
        rw [if_pos hg, if_pos ho]
        rfl
      rw [hacc]
      have hexc : cellExc off i e = false := by
        have : e.kind = "order" := by simpa using ho
        simp [cellExc, isExcKind, this]
      rw [hexc]
      by_cases hidx : bucketIdx off e.ts_utc = i
      · have hcell : cellOrder off i e = true := by simp [cellOrder, hgb, hidx, ho]
        rw [hcell, hidx]
        simpa using getD_bump_self bo i h1
      · have hcell : cellOrder off i e = false := by simp [cellOrder, hidx]
        rw [hcell]
        simpa using getD_bump_ne bo _ i hidx
    · by_cases hx : e.kind == "reject" || e.kind == "muda"
      · have hacc : accCounts off (bo, be) e = (bo, bump be (bucketIdx off e.ts_utc)) := by
          simp only [accCounts]
          rw [if_pos hg, if_neg (by simpa using ho), if_pos hx]
          rfl
        rw [hacc]
        have hord : cellOrder off i e = false := by simp [cellOrder, ho]
        rw [hord]
        by_cases hidx : bucketIdx off e.ts_utc = i
        · have hcell : cellExc off i e = true := by
            simp [cellExc, isExcKind, hgb, hidx]
            simpa using hx
          rw [hcell, hidx]
          simpa using getD_bump_self be i h2
        · have hcell : cellExc off i e = false := by simp [cellExc, hidx]
          rw [hcell]
          simpa using getD_bump_ne be _ i hidx
      · have hacc : accCounts off (bo, be) e = (bo, be) := by
          simp only [accCounts]
          rw [if_pos hg, if_neg (by simpa using ho), if_neg (by simpa using hx)]
        rw [hacc]
        have hord : cellOrder off i e = false := by simp [cellOrder, ho]
        have hr := hx
        simp only [Bool.or_eq_true, not_or, Bool.not_eq_true] at hr
        have hexc : cellExc off i e = false := by
          simp [cellExc, isExcKind, hr.1, hr.2]
        rw [hord, hexc]
        simp
  · have hacc : accCounts off (bo, be) e = (bo, be) := by
      simp only [accCounts]
      rw [if_neg hg]
    have hgb : inShiftLocal off e.ts_utc = false := by
      simp only [inShiftLocal, local_of_utc]
      simp only [not_and, not_lt] at hg
      by_cases h1 : shift_start_loc ≤ e.ts_utc + off
      · simp only [local_of_utc] at hg
        simp [h1, not_lt.2 (hg h1)]
      · simp [h1]
    have hord : cellOrder off i e = false := by simp [cellOrder, hgb]
    have hexc : cellExc off i e = false := by simp [cellExc, hgb]
    rw [hacc, hord, hexc]
    simp

theorem accCounts_sum (off : Int) (bo be : List Nat) (e : Event)
    (h1 : bo.length = 14) (h2 : be.length = 14) :
    (accCounts off (bo, be) e).1.sum = bo.sum + (if shiftOrder off e then 1 else 0) ∧
      (accCounts off (bo, be) e).2.sum = be.sum + (if shiftExc off e then 1 else 0) := by
  by_cases hg : shift_start_loc ≤ local_of_utc off e.ts_utc ∧
      local_of_utc off e.ts_utc < shift_end_loc
  · have hgb : inShiftLocal off e.ts_utc = true := by
      simp [inShiftLocal, hg.1, hg.2]
    have hlt : bucketIdx off e.ts_utc < 14 := bucketIdx_lt off e.ts_utc hgb
    by_cases ho : e.kind == "order"
    · have hacc : accCounts off (bo, be) e = (bump bo (bucketIdx off e.ts_utc), be) := by
        simp only [accCounts]
        rw [if_pos hg, if_pos ho]
        rfl
      rw [hacc]
      have h1' : shiftOrder off e = true := by simp [shiftOrder, hgb, ho]
      have h2' : shiftExc off e = false := by
        have : e.kind = "order" := by simpa using ho
        simp [shiftExc, isExcKind, this]
      rw [h1', h2']
      exact ⟨by simpa using sum_bump bo _ (h1 ▸ hlt), by simp⟩
    · by_cases hx : e.kind == "reject" || e.kind == "muda"
      · have hacc : accCounts off (bo, be) e = (bo, bump be (bucketIdx off e.ts_utc)) := by
          simp only [accCounts]
          rw [if_pos hg, if_neg (by simpa using ho), if_pos hx]
          rfl
        rw [hacc]
        have h1' : shiftOrder off e = false := by simp [shiftOrder, ho]
        have h2' : shiftExc off e = true := by
          simp only [shiftExc, isExcKind, hgb, Bool.true_and]
          simpa using hx
        rw [h1', h2']
        exact ⟨by simp, by simpa using sum_bump be _ (h2 ▸ hlt)⟩
      · have hacc : accCounts off (bo, be) e = (bo, be) := by
          simp only [accCounts]
          rw [if_pos hg, if_neg (by simpa using ho), if_neg (by simpa using hx)]
        have hr := hx
        simp only [Bool.or_eq_true, not_or, Bool.not_eq_true] at hr
        have h1' : shiftOrder off e = false := by simp [shiftOrder, ho]
        have h2' : shiftExc off e = false := by simp [shiftExc, isExcKind, hr.1, hr.2]
        rw [hacc, h1', h2']
        simp
  · have hacc : accCounts off (bo, be) e = (bo, be) := by
      simp only [accCounts]
      rw [if_neg hg]
    have hgb : inShiftLocal off e.ts_utc = false := by
      simp only [inShiftLocal, local_of_utc]
      simp only [not_and, not_lt, local_of_utc] at hg
      by_cases h1 : shift_start_loc ≤ e.ts_utc + off
      · simp [h1, not_lt.2 (hg h1)]
      · simp [h1]
    have h1' : shiftOrder off e = false := by simp [shiftOrder, hgb]
    have h2' : shiftExc off e = false := by simp [shiftExc, hgb]
    rw [hacc, h1', h2']
    simp

theorem foldl_accCounts_len (off : Int) :
    ∀ (evs : List Event) (bo be : List Nat),
      (evs.foldl (accCounts off) (bo, be)).1.length = bo.length ∧
        (evs.foldl (accCounts off) (bo, be)).2.length = be.length
  | [], bo, be => ⟨rfl, rfl⟩
  | e :: evs, bo, be => by
    rw [List.foldl_cons]
    obtain ⟨ha1, ha2⟩ := accCounts_len off bo be e
    have := foldl_accCounts_len off evs (accCounts off (bo, be) e).1
      (accCounts off (bo, be) e).2
    rw [ha1, ha2] at this
    simpa using this

theorem foldl_accCounts_getD (off : Int) (i : Nat) :
    ∀ (evs : List Event) (bo be : List Nat), i < bo.length → i < be.length →
      (evs.foldl (accCounts off) (bo, be)).1.getD i 0
          = bo.getD i 0 + evs.countP (cellOrder off i) ∧
        (evs.foldl (accCounts off) (bo, be)).2.getD i 0
          = be.getD i 0 + evs.countP (cellExc off i)
  | [], bo, be, _, _ => by simp
  | e :: evs, bo, be, h1, h2 => by
    rw [List.foldl_cons]
    obtain ⟨ha1, ha2⟩ := accCounts_len off bo be e
    obtain ⟨hg1, hg2⟩ := accCounts_getD off bo be e i h1 h2
    obtain ⟨ih1, ih2⟩ := foldl_accCounts_getD off i evs
      (accCounts off (bo, be) e).1 (accCounts off (bo, be) e).2
      (ha1 ▸ h1) (ha2 ▸ h2)
    have hfold : evs.foldl (accCounts off)
        ((accCounts off (bo, be) e).1, (accCounts off (bo, be) e).2)
        = evs.foldl (accCounts off) (accCounts off (bo, be) e) := by simp
    rw [hfold] at ih1 ih2
    rw [ih1, ih2, hg1, hg2, List.countP_cons, List.countP_cons]
    omega

theorem foldl_accCounts_sum (off : Int) :
    ∀ (evs : List Event) (bo be : List Nat), bo.length = 14 → be.length = 14 →
      (evs.foldl (accCounts off) (bo, be)).1.sum
          = bo.sum + evs.countP (shiftOrder off) ∧
        (evs.foldl (accCounts off) (bo, be)).2.sum
          = be.sum + evs.countP (shiftExc off)
  | [], bo, be, _, _ => by simp
  | e :: evs, bo, be, h1, h2 => by
    rw [List.foldl_cons]
    obtain ⟨ha1, ha2⟩ := accCounts_len off bo be e
    obtain ⟨hs1, hs2⟩ := accCounts_sum off bo be e h1 h2
    obtain ⟨ih1, ih2⟩ := foldl_accCounts_sum off evs
      (accCounts off (bo, be) e).1 (accCounts off (bo, be) e).2
      (ha1.trans h1) (ha2.trans h2)
    have hfold : evs.foldl (accCounts off)
        ((accCounts off (bo, be) e).1, (accCounts off (bo, be) e).2)
        = evs.foldl (accCounts off) (accCounts off (bo, be) e) := by simp
    rw [hfold] at ih1 ih2
    rw [ih1, ih2, hs1, hs2, List.countP_cons, List.countP_cons]
    omega

theorem getD_range_map {α : Type} (f : Nat → α) (n i : Nat) (h : i < n) (d : α) :
    ((List.range n).map f).getD i d = f i := by
  rw [List.getD_eq_getElem?_getD]
  simp [List.getElem?_map, List.getElem?_range h]

theorem getD_replicate_zero (n i : Nat) : (List.replicate n (0 : Nat)).getD i 0 = 0 := by
  by_cases h : i < n
  · rw [List.getD_eq_getElem?_getD]
    simp_all [List.getElem?_replicate]
  · rw [List.getD_eq_getElem?_getD, List.getElem?_eq_none (by simpa using by omega)]
    rfl

theorem sum_range_getD : ∀ l : List Nat,
    ((List.range l.length).map (fun i => l.getD i 0)).sum = l.sum
  | [] => rfl
  | a :: l => by
    have ih := sum_range_getD l
    rw [List.length_cons, List.range_succ_eq_map, List.map_cons, List.map_map, List.sum_cons,
      List.getD_cons_zero]
    have hmap : ((List.range l.length).map ((fun i => (a :: l).getD i 0) ∘ Nat.succ)).sum
        = l.sum := by
      rw [← ih]
      apply congrArg
      apply List.map_congr_left
      intro i _
      simp [List.getD_cons_succ]
    rw [hmap, List.sum_cons]

/-- The label column of row `i` of `today_rows_for`. -/
theorem today_rows_label (off now : Int) (st rl sp : String)
    (events : List Event) (reasons : List ReasonEvent) (i : Nat) (hi : i < 14) :
    ((today_rows_for off now st rl sp events reasons).1.getD i ("", 0, 0, 0, 0, 0)).1
      = fixed_hour_labels.getD i "" := by
  simp only [today_rows_for]
  rw [fixed_hour_labels_length, getD_range_map _ _ _ hi]

/-- The orders column of row `i` of `today_rows_for` counts exactly the
events that pass the query filter and land in bucket `i` with kind order. -/
theorem today_rows_orders (off now : Int) (st rl sp : String)
    (events : List Event) (reasons : List ReasonEvent) (i : Nat) (hi : i < 14) :
    ((today_rows_for off now st rl sp events reasons).1.getD i ("", 0, 0, 0, 0, 0)).2.1
      = events.countP (fun e => cellOrder off i e && evFilter off st rl sp e) := by
  simp only [today_rows_for]
  rw [fixed_hour_labels_length, getD_range_map _ _ _ hi]
  obtain ⟨hg, _⟩ := foldl_accCounts_getD off i
    (events.filter (evFilter off st rl sp)) (List.replicate 14 0) (List.replicate 14 0)
    (by simpa using hi) (by simpa using hi)
  dsimp only
  rw [hg, getD_replicate_zero, List.countP_filter]
  simp

/-- The exceptions column of row `i` of `today_rows_for` counts exactly the
events that pass the query filter and land in bucket `i` with kind reject or
muda. -/
theorem today_rows_exc (off now : Int) (st rl sp : String)
    (events : List Event) (reasons : List ReasonEvent) (i : Nat) (hi : i < 14) :
    ((today_rows_for off now st rl sp events reasons).1.getD i ("", 0, 0, 0, 0, 0)).2.2.1
      = events.countP (fun e => cellExc off i e && evFilter off st rl sp e) := by
  simp only [today_rows_for]
  rw [fixed_hour_labels_length, getD_range_map _ _ _ hi]
  obtain ⟨_, hg⟩ := foldl_accCounts_getD off i
    (events.filter (evFilter off st rl sp)) (List.replicate 14 0) (List.replicate 14 0)
    (by simpa using hi) (by simpa using hi)
  dsimp only
  rw [hg, getD_replicate_zero, List.countP_filter]
  simp

/-- An order event for the key whose local timestamp lies in the shift
window `[start_local, end_local)` — what the spec calls "the total number of
kind='order' events for that key in that range". -/
def orderForKeyInRange (off : Int) (st rl sp : String) (e : Event) : Bool :=
  e.station == st && e.role == rl && e.stamp == sp && (e.kind == "order") &&
    decide (shift_start_loc ≤ local_of_utc off e.ts_utc) &&
    decide (local_of_utc off e.ts_utc < shift_end_loc)

/-- A reject/muda event for the key whose local timestamp lies in the shift
window. -/
def excForKeyInRange (off : Int) (st rl sp : String) (e : Event) : Bool :=
  e.station == st && e.role == rl && e.stamp == sp && isExcKind e.kind &&
    decide (shift_start_loc ≤ local_of_utc off e.ts_utc) &&
    decide (local_of_utc off e.ts_utc < shift_end_loc)

theorem shiftOrder_evFilter_eq (off : Int) (st rl sp : String) (e : Event) :
    (shiftOrder off e && evFilter off st rl sp e) = orderForKeyInRange off st rl sp e := by
  simp only [shiftOrder, evFilter, orderForKeyInRange, inShiftLocal, utc_from_local,
    local_of_utc]
  cases h1 : e.station == st <;> cases h2 : e.role == rl <;> cases h3 : e.stamp == sp <;>
    cases h4 : e.kind == "order" <;> simp [h1, h2, h3, h4] <;> omega

theorem shiftExc_evFilter_eq (off : Int) (st rl sp : String) (e : Event) :
    (shiftExc off e && evFilter off st rl sp e) = excForKeyInRange off st rl sp e := by
  simp only [shiftExc, evFilter, excForKeyInRange, inShiftLocal, utc_from_local,
    local_of_utc]
  cases h1 : e.station == st <;> cases h2 : e.role == rl <;> cases h3 : e.stamp == sp <;>
    cases h4 : isExcKind e.kind <;> simp [h1, h2, h3, h4] <;> omega

theorem sum_replicate_zero : ∀ n : Nat, (List.replicate n (0 : Nat)).sum = 0
  | 0 => rfl
  | n + 1 => by rw [List.replicate_succ, List.sum_cons, sum_replicate_zero n]

theorem rows_map_orders_sum (labels : List String) (bo be bb bk bs : List Nat)
    (hlen : bo.length = labels.length) :
    (((List.range labels.length).map fun i =>
        (labels.getD i "", bo.getD i 0, be.getD i 0, bb.getD i 0, bk.getD i 0,
         bs.getD i 0)).map (fun r => r.2.1)).sum = bo.sum := by
  rw [List.map_map]
  have hc : ((fun (r : String × Nat × Nat × Nat × Nat × Nat) => r.2.1) ∘ fun i =>
      (labels.getD i "", bo.getD i 0, be.getD i 0, bb.getD i 0, bk.getD i 0,
       bs.getD i 0)) = fun i => bo.getD i 0 := rfl
  rw [hc, ← hlen, sum_range_getD]

theorem rows_map_exc_sum (labels : List String) (bo be bb bk bs : List Nat)
    (hlen : be.length = labels.length) :
    (((List.range labels.length).map fun i =>
        (labels.getD i "", bo.getD i 0, be.getD i 0, bb.getD i 0, bk.getD i 0,
         bs.getD i 0)).map (fun r => r.2.2.1)).sum = be.sum := by
  rw [List.map_map]
  have hc : ((fun (r : String × Nat × Nat × Nat × Nat × Nat) => r.2.2.1) ∘ fun i =>
      (labels.getD i "", bo.getD i 0, be.getD i 0, bb.getD i 0, bk.getD i 0,
       bs.getD i 0)) = fun i => be.getD i 0 := rfl
  rw [hc, ← hlen, sum_range_getD]

/-- Sum of the orders column over all rows of `today_rows_for`. -/
theorem today_rows_orders_sum (off now : Int) (st rl sp : String)
    (events : List Event) (reasons : List ReasonEvent) :
    ((today_rows_for off now st rl sp events reasons).1.map (fun r => r.2.1)).sum
      = events.countP (orderForKeyInRange off st rl sp) := by
  simp only [today_rows_for]
  rw [rows_map_orders_sum _ _ _ _ _ _
    (by rw [(foldl_accCounts_len off _ _ _).1, List.length_replicate])]
  obtain ⟨hs, _⟩ := foldl_accCounts_sum off (events.filter (evFilter off st rl sp))
    (List.replicate fixed_hour_labels.length 0) (List.replicate fixed_hour_labels.length 0)
    (by rw [List.length_replicate, fixed_hour_labels_length])
    (by rw [List.length_replicate, fixed_hour_labels_length])
  rw [hs, List.countP_filter]
  rw [sum_replicate_zero, Nat.zero_add]
  exact countP_congr_list fun e _ => shiftOrder_evFilter_eq off st rl sp e

/-- Sum of the exceptions column over all rows of `today_rows_for`. -/
theorem today_rows_exc_sum (off now : Int) (st rl sp : String)
    (events : List Event) (reasons : List ReasonEvent) :
    ((today_rows_for off now st rl sp events reasons).1.map (fun r => r.2.2.1)).sum
      = events.countP (excForKeyInRange off st rl sp) := by
  simp only [today_rows_for]
  rw [rows_map_exc_sum _ _ _ _ _ _
    (by rw [(foldl_accCounts_len off _ _ _).2, List.length_replicate])]
  obtain ⟨_, hs⟩ := foldl_accCounts_sum off (events.filter (evFilter off st rl sp))
    (List.replicate fixed_hour_labels.length 0) (List.replicate fixed_hour_labels.length 0)
    (by rw [List.length_replicate, fixed_hour_labels_length])
    (by rw [List.length_replicate, fixed_hour_labels_length])
  rw [hs, List.countP_filter]
  rw [sum_replicate_zero, Nat.zero_add]
  exact countP_congr_list fun e _ => shiftExc_evFilter_eq off st rl sp e

/-! ## C2: conservation of counts -/

/-- C2: for every key `(station, role, stamp)` and any event store, the sum
over all buckets of the per-bucket order counts returned by `today_rows_for`
equals the total number of kind=order events for that key whose (local)
timestamps fall within `[start_local, end_local)`; likewise the sum of the
per-bucket exceptions column equals the total number of events with kind in
`{reject, muda}` for that key in that range. -/
theorem C2_conservation (off now : Int) (st rl sp : String)
    (events : List Event) (reasons : List ReasonEvent) :
    ((today_rows_for off now st rl sp events reasons).1.map (fun r => r.2.1)).sum
        = events.countP (orderForKeyInRange off st rl sp) ∧
      ((today_rows_for off now st rl sp events reasons).1.map (fun r => r.2.2.1)).sum
        = events.countP (excForKeyInRange off st rl sp) :=
  ⟨today_rows_orders_sum off now st rl sp events reasons,
   today_rows_exc_sum off now st rl sp events reasons⟩

/-! ## C10: bucket indices stay in bounds -/

/-- C10: for every event of the aggregator's UTC-range query, if the event's
local timestamp passes the shift-window guard then the computed bucket index
`floor((local - start_local) / 1h)` lies within `[0, number of buckets)`
(so the accumulator lists are never indexed out of bounds), and an event
failing the guard is silently skipped (the accumulators are unchanged). -/
theorem C10_bucket_safety (off : Int) (bo be : List Nat) (e : Event) :
    ((shift_start_loc ≤ local_of_utc off e.ts_utc ∧
        local_of_utc off e.ts_utc < shift_end_loc) →
      (local_of_utc off e.ts_utc - shift_start_loc).toNat / 60
        < fixed_hour_labels.length) ∧
    (¬(shift_start_loc ≤ local_of_utc off e.ts_utc ∧
        local_of_utc off e.ts_utc < shift_end_loc) →
      accCounts off (bo, be) e = (bo, be)) := by
  constructor
  · intro hg
    rw [fixed_hour_labels_length]
    have hb : inShiftLocal off e.ts_utc = true := by simp [inShiftLocal, hg.1, hg.2]
    simpa [bucketIdx] using bucketIdx_lt off e.ts_utc hb
  · intro hg
    simp only [accCounts]
    rw [if_neg hg]

theorem C10_bucket_safety_witness :
    ((local_of_utc (-300) ((690 : Int)) - shift_start_loc).toNat / 60
        < fixed_hour_labels.length) ∧
      accCounts (-300) ([0], [0]) (Event.mk "BTEn-1" "Shipper" "1234" "order" 2000)
        = ([0], [0]) :=
  ⟨(C10_bucket_safety (-300) [0] [0] (Event.mk "BTEn-1" "Shipper" "1234" "order" 690)).1
      (by constructor <;> decide),
   (C10_bucket_safety (-300) [0] [0] (Event.mk "BTEn-1" "Shipper" "1234" "order" 2000)).2
      (by decide)⟩

/-! ## C8: the live current-hour counter -/

/-- C8: the live current-hour order counter returned by `today_rows_for`
equals the number of kind=order events for the key whose timestamp is at or
after the start of the current local wall-clock hour, with no upper time
bound and independently of the shift-window buckets; concretely, with
`now = 4:30` (before the 5:00 shift start) an order event at local `4:10`
is counted by the live counter while every bucket of the table is zero. -/
theorem C8_live_hour_counter :
    (∀ (off now : Int) (st rl sp : String) (events : List Event)
        (reasons : List ReasonEvent),
      (today_rows_for off now st rl sp events reasons).2
        = events.countP (fun e =>
            e.kind == "order" && e.station == st && e.role == rl && e.stamp == sp &&
              decide (60 * (now / 60) ≤ local_of_utc off e.ts_utc))) ∧
    ((today_rows_for (-300) 270 "BTEn-1" "Shipper" "1234"
        [Event.mk "BTEn-1" "Shipper" "1234" "order" 550] []).2 = 1 ∧
      local_of_utc (-300) 550 < shift_start_loc ∧
      ((today_rows_for (-300) 270 "BTEn-1" "Shipper" "1234"
          [Event.mk "BTEn-1" "Shipper" "1234" "order" 550] []).1.map fun r => r.2.1)
        = List.replicate 14 0) := by
  constructor
  · intro off now st rl sp events reasons
    simp only [today_rows_for]
    apply countP_congr_list
    intro e _
    simp only [hourCountFilter, utc_from_local, local_of_utc]
    congr 1
    rw [decide_eq_decide]
    omega
  · refine ⟨?_, by decide, ?_⟩
    · simp only [today_rows_for]
      decide
    · simp only [today_rows_for, fixed_hour_labels_length]
      decide

/-! ## C9: concrete one-event scenario -/

/-- C9: with the 05:00-19:00 shift, inserting exactly one order event for
station `BTEn-1`, role `Shipper`, stamp `1234` at local time 06:30 (UTC
timestamp `390 - off` for any fixed offset `off`) makes the bucket table for
that key show the bucket labelled `6:00 AM – 7:00 AM` with orders = 1 and
all other columns 0, while the remaining 13 buckets are all-zero. -/
theorem C9_single_order_scenario (off : Int) :
    (today_rows_for off 390 "BTEn-1" "Shipper" "1234"
        [Event.mk "BTEn-1" "Shipper" "1234" "order" (390 - off)] []).1
      = [("5:00 AM – 6:00 AM", 0, 0, 0, 0, 0),
         ("6:00 AM – 7:00 AM", 1, 0, 0, 0, 0),
         ("7:00 AM – 8:00 AM", 0, 0, 0, 0, 0),
         ("8:00 AM – 9:00 AM", 0, 0, 0, 0, 0),
         ("9:00 AM – 10:00 AM", 0, 0, 0, 0, 0),
         ("10:00 AM – 11:00 AM", 0, 0, 0, 0, 0),
         ("11:00 AM – 12:00 PM", 0, 0, 0, 0, 0),
         ("12:00 PM – 1:00 PM", 0, 0, 0, 0, 0),
         ("1:00 PM – 2:00 PM", 0, 0, 0, 0, 0),
         ("2:00 PM – 3:00 PM", 0, 0, 0, 0, 0),
         ("3:00 PM – 4:00 PM", 0, 0, 0, 0, 0),
         ("4:00 PM – 5:00 PM", 0, 0, 0, 0, 0),
         ("5:00 PM – 6:00 PM", 0, 0, 0, 0, 0),
         ("6:00 PM – 7:00 PM", 0, 0, 0, 0, 0)] := by
  have hev : evFilter off "BTEn-1" "Shipper" "1234"
      (Event.mk "BTEn-1" "Shipper" "1234" "order" (390 - off)) = true := by
    have hs : shift_start_loc = 300 := by decide
    have he : shift_end_loc = 1140 := by decide
    simp only [evFilter, utc_from_local, hs, he]
    simp
  have hloc : local_of_utc off (390 - off) = 390 := by
    simp [local_of_utc]
  have hacc : accCounts off
        (List.replicate fixed_hour_labels.length 0,
         List.replicate fixed_hour_labels.length 0)
        (Event.mk "BTEn-1" "Shipper" "1234" "order" (390 - off))
      = ([0, 1, 0, 0, 0, 0, 0, 0, 0, 0, 0, 0, 0, 0],
         List.replicate 14 0) := by
    simp only [accCounts]
    rw [hloc, fixed_hour_labels_length]
    rw [if_pos (by constructor <;> decide), if_pos (by decide)]
    decide
  simp only [today_rows_for]
  rw [show List.filter (evFilter off "BTEn-1" "Shipper" "1234")
        [Event.mk "BTEn-1" "Shipper" "1234" "order" (390 - off)]
      = [Event.mk "BTEn-1" "Shipper" "1234" "order" (390 - off)] by
    rw [List.filter_cons_of_pos hev, List.filter_nil]]
  rw [List.foldl_cons, List.foldl_nil, hacc]
  rw [List.filter_nil, List.foldl_nil]
  rw [fixed_hour_labels_length, fixed_hour_labels_eval]
  decide

/-! ## Behaviour of `adjust_hour` on valid inputs -/

theorem clampCount_bounds (c : Int) : 1 ≤ clampCount c ∧ clampCount c ≤ 99 := by
  simp only [clampCount]
  omega

theorem clampCount_eq_self {c : Int} (h1 : 1 ≤ c) (h2 : c ≤ 99) : clampCount c = c := by
  simp only [clampCount]
  omega

theorem stamp_ne_empty {sp : String} (h : sp.length = 4) : sp ≠ "" := by
  intro hh
  rw [hh] at h
  exact absurd h (by decide)

theorem adjust_hour_add_eq (off : Int) (st rl sp kind : String) (c hix : Int)
    (events : List Event) (reasons : List ReasonEvent)
    (hst : st ≠ "") (hrl : rl ≠ "") (hsp4 : sp.length = 4)
    (hspd : sp.toList.all Char.isDigit = true)
    (hkind : kind = "order" ∨ kind = "reject" ∨ kind = "muda")
    (hhix : 0 ≤ hix ∧ hix < 14) :
    adjust_hour off true st rl sp kind "add" (some c) (some hix) events reasons
      = .panel (events ++ List.replicate (clampCount c).toNat
            (Event.mk st rl sp kind (utc_from_local off (shift_start_loc + 60 * hix) + 1)))
          reasons
          ("Added " ++ toString (clampCount c).toNat ++ " " ++ kind ++ "(s) in "
            ++ fixed_hour_labels.getD hix.toNat "" ++ ".") := by
  have hv1 : (st != "" && rl != "" && sp != "" && sp.length == 4
      && sp.toList.all Char.isDigit) = true := by
    simp only [Bool.and_eq_true, bne_iff_ne, ne_eq, beq_iff_eq]
    exact ⟨⟨⟨⟨hst, hrl⟩, stamp_ne_empty hsp4⟩, hsp4⟩, hspd⟩
  have hv3 : (decide (0 ≤ hix) && decide (hix < (fixed_hour_labels.length : Int))) = true := by
    rw [fixed_hour_labels_length]
    simp only [Bool.and_eq_true, decide_eq_true_eq]
    exact ⟨hhix.1, by exact_mod_cast hhix.2⟩
  rcases hkind with rfl | rfl | rfl <;>
  · simp only [adjust_hour, hv1, hv3, Bool.not_true, Bool.false_eq_true, if_false]
    norm_num
    rw [if_neg (by decide), if_neg (by decide)]

/-- What an `order_by(desc).limit(n)` bulk delete does to the table, counted:
it deletes exactly `min n matched` records, all matching, leaving
non-matching counts untouched. -/
theorem remove_newest_spec {α : Type} [DecidableEq α] (f : α → Int) (p : α → Bool)
    (n : Nat) (l : List α) :
    ((sortDescBy f (l.filter p)).take n).length = min n (l.countP p) ∧
    (l.diff ((sortDescBy f (l.filter p)).take n)).countP p
        = l.countP p - min n (l.countP p) ∧
    (l.diff ((sortDescBy f (l.filter p)).take n)).length
        = l.length - min n (l.countP p) ∧
    (∀ q : α → Bool, (∀ x, q x = true → p x = false) →
      (l.diff ((sortDescBy f (l.filter p)).take n)).countP q = l.countP q) := by
  have hsub := takeNewest_subperm f p n l
  have hlen := takeNewest_length f p n l
  have hprop := takeNewest_prop f p n l
  have hVp : ((sortDescBy f (l.filter p)).take n).countP p
      = min n (l.countP p) := by
    rw [List.countP_eq_length.2 hprop, hlen]
  refine ⟨hlen, ?_, ?_, ?_⟩
  · rw [countP_diff_subperm p hsub, hVp]
  · rw [length_diff_subperm hsub, hlen]
  · intro q hq
    have hVq : ((sortDescBy f (l.filter p)).take n).countP q = 0 :=
      List.countP_eq_zero.2 fun x hx hqx => by
        have hpx := hprop x hx
        rw [hq x hqx] at hpx
        exact absurd hpx (by decide)
    rw [countP_diff_subperm q hsub, hVq]
    omega

/-- Adding `n` copies of a record matching `p` and then deleting the `n`
newest `p`-matches restores every count that is implied by `p`. -/
theorem countP_add_remove {α : Type} [DecidableEq α] (f : α → Int) (p q : α → Bool)
    (l : List α) (a : α) (n : Nat)
    (hpq : ∀ x, p x = true → q x = true) (hpa : p a = true) :
    ((l ++ List.replicate n a).diff
        ((sortDescBy f ((l ++ List.replicate n a).filter p)).take n)).countP q
      = l.countP q := by
  have hsub := takeNewest_subperm f p n (l ++ List.replicate n a)
  have hlen := takeNewest_length f p n (l ++ List.replicate n a)
  have hprop := takeNewest_prop f p n (l ++ List.replicate n a)
  have hLp : (l ++ List.replicate n a).countP p = l.countP p + n := by
    rw [List.countP_append, List.countP_replicate, if_pos hpa]
  have hVlen : ((sortDescBy f ((l ++ List.replicate n a).filter p)).take n).length
      = n := by
    rw [hlen, hLp]
    omega
  have hVq : ((sortDescBy f ((l ++ List.replicate n a).filter p)).take n).countP q
      = n := by
    rw [List.countP_eq_length.2 fun x hx => hpq x (hprop x hx), hVlen]
  have hLq : (l ++ List.replicate n a).countP q = l.countP q + n := by
    rw [List.countP_append, List.countP_replicate, if_pos (hpq a hpa)]
  rw [countP_diff_subperm q hsub, hVq, hLq]
  omega

theorem adjust_hour_remove_eq (off : Int) (st rl sp kind : String) (c hix : Int)
    (events : List Event) (reasons : List ReasonEvent)
    (hst : st ≠ "") (hrl : rl ≠ "") (hsp4 : sp.length = 4)
    (hspd : sp.toList.all Char.isDigit = true)
    (hkind : kind = "order" ∨ kind = "reject" ∨ kind = "muda")
    (hhix : 0 ≤ hix ∧ hix < 14) :
    adjust_hour off true st rl sp kind "remove" (some c) (some hix) events reasons
      = .panel (events.diff ((sortDescBy (fun e => e.ts_utc)
            (events.filter (adjEvMatch st rl sp kind
              (utc_from_local off (shift_start_loc + 60 * hix))
              (utc_from_local off (shift_start_loc + 60 * hix + 60))))).take
            (clampCount c).toNat))
          reasons
          (if ((sortDescBy (fun e => e.ts_utc)
              (events.filter (adjEvMatch st rl sp kind
                (utc_from_local off (shift_start_loc + 60 * hix))
                (utc_from_local off (shift_start_loc + 60 * hix + 60))))).take
              (clampCount c).toNat).length != 0 then
            "Removed " ++ toString ((sortDescBy (fun e => e.ts_utc)
                (events.filter (adjEvMatch st rl sp kind
                  (utc_from_local off (shift_start_loc + 60 * hix))
                  (utc_from_local off (shift_start_loc + 60 * hix + 60))))).take
                (clampCount c).toNat).length ++ " " ++ kind ++ "(s) in "
              ++ fixed_hour_labels.getD hix.toNat "" ++ "."
          else "No change.") := by
  have hv1 : (st != "" && rl != "" && sp != "" && sp.length == 4
      && sp.toList.all Char.isDigit) = true := by
    simp only [Bool.and_eq_true, bne_iff_ne, ne_eq, beq_iff_eq]
    exact ⟨⟨⟨⟨hst, hrl⟩, stamp_ne_empty hsp4⟩, hsp4⟩, hspd⟩
  have hv3 : (decide (0 ≤ hix) && decide (hix < (fixed_hour_labels.length : Int))) = true := by
    rw [fixed_hour_labels_length]
    simp only [Bool.and_eq_true, decide_eq_true_eq]
    exact ⟨hhix.1, by exact_mod_cast hhix.2⟩
  rcases hkind with rfl | rfl | rfl <;>
  · simp only [adjust_hour, hv1, hv3, Bool.not_true, Bool.false_eq_true, if_false]
    norm_num
    exact fun h => absurd h (by decide)

theorem adjust_hour_reason_remove_eq (off : Int) (st rl sp kind : String) (c hix : Int)
    (events : List Event) (reasons : List ReasonEvent)
    (hst : st ≠ "") (hrl : rl ≠ "") (hsp4 : sp.length = 4)
    (hspd : sp.toList.all Char.isDigit = true)
    (hk : startsWithReason kind = true)
    (hhix : 0 ≤ hix ∧ hix < 14) :
    adjust_hour off true st rl sp kind "remove" (some c) (some hix) events reasons
      = .panel events
          (reasons.diff ((sortDescBy (fun r => r.ts_utc)
            (reasons.filter (adjRsMatch st rl sp (kind.drop 7)
              (utc_from_local off (shift_start_loc + 60 * hix))
              (utc_from_local off (shift_start_loc + 60 * hix + 60))))).take
            (clampCount c).toNat))
          (if ((sortDescBy (fun r => r.ts_utc)
              (reasons.filter (adjRsMatch st rl sp (kind.drop 7)
                (utc_from_local off (shift_start_loc + 60 * hix))
                (utc_from_local off (shift_start_loc + 60 * hix + 60))))).take
              (clampCount c).toNat).length != 0 then
            "Removed " ++ toString ((sortDescBy (fun r => r.ts_utc)
                (reasons.filter (adjRsMatch st rl sp (kind.drop 7)
                  (utc_from_local off (shift_start_loc + 60 * hix))
                  (utc_from_local off (shift_start_loc + 60 * hix + 60))))).take
                (clampCount c).toNat).length ++ " reason(s) '" ++ kind.drop 7
              ++ "' in " ++ fixed_hour_labels.getD hix.toNat "" ++ "."
          else "No change.") := by
  have hv1 : (st != "" && rl != "" && sp != "" && sp.length == 4
      && sp.toList.all Char.isDigit) = true := by
    simp only [Bool.and_eq_true, bne_iff_ne, ne_eq, beq_iff_eq]
    exact ⟨⟨⟨⟨hst, hrl⟩, stamp_ne_empty hsp4⟩, hsp4⟩, hspd⟩
  have hv2 : (kind == "order" || kind == "reject" || kind == "muda"
      || startsWithReason kind) = true := by
    simp [hk]
  have hv3 : (decide (0 ≤ hix) && decide (hix < (fixed_hour_labels.length : Int))) = true := by
    rw [fixed_hour_labels_length]
    simp only [Bool.and_eq_true, decide_eq_true_eq]
    exact ⟨hhix.1, by exact_mod_cast hhix.2⟩
  simp only [adjust_hour, hv1, hv2, hv3, Bool.not_true, Bool.false_eq_true, if_false]
  norm_num [hk]

theorem adjust_hour_reason_add_eq (off : Int) (st rl sp kind : String) (c hix : Int)
    (events : List Event) (reasons : List ReasonEvent)
    (hst : st ≠ "") (hrl : rl ≠ "") (hsp4 : sp.length = 4)
    (hspd : sp.toList.all Char.isDigit = true)
    (hk : startsWithReason kind = true)
    (hhix : 0 ≤ hix ∧ hix < 14) :
    adjust_hour off true st rl sp kind "add" (some c) (some hix) events reasons
      = .panel events
          (reasons ++ List.replicate (clampCount c).toNat
            (ReasonEvent.mk st rl sp (kind.drop 7)
              (utc_from_local off (shift_start_loc + 60 * hix) + 1)))
          ("Added " ++ toString (clampCount c).toNat ++ " reason(s) '" ++ kind.drop 7
            ++ "' in " ++ fixed_hour_labels.getD hix.toNat "" ++ ".") := by
  have hv1 : (st != "" && rl != "" && sp != "" && sp.length == 4
      && sp.toList.all Char.isDigit) = true := by
    simp only [Bool.and_eq_true, bne_iff_ne, ne_eq, beq_iff_eq]
    exact ⟨⟨⟨⟨hst, hrl⟩, stamp_ne_empty hsp4⟩, hsp4⟩, hspd⟩
  have hv2 : (kind == "order" || kind == "reject" || kind == "muda"
      || startsWithReason kind) = true := by
    simp [hk]
  have hv3 : (decide (0 ≤ hix) && decide (hix < (fixed_hour_labels.length : Int))) = true := by
    rw [fixed_hour_labels_length]
    simp only [Bool.and_eq_true, decide_eq_true_eq]
    exact ⟨hhix.1, by exact_mod_cast hhix.2⟩
  simp only [adjust_hour, hv1, hv2, hv3, Bool.not_true, Bool.false_eq_true, if_false]
  norm_num [hk]
  exact fun h => absurd h (by decide)

/-- Any record matching the admin hour-window filter for bucket `hix` is
counted by the aggregator in exactly that bucket, for the same key. -/
theorem adjEvMatch_decomp (off : Int) (st rl sp kind : String) (hix : Int)
    (hhix : 0 ≤ hix ∧ hix < 14) (e : Event)
    (h : adjEvMatch st rl sp kind (utc_from_local off (shift_start_loc + 60 * hix))
        (utc_from_local off (shift_start_loc + 60 * hix + 60)) e = true) :
    e.station = st ∧ e.role = rl ∧ e.stamp = sp ∧ e.kind = kind ∧
      evFilter off st rl sp e = true ∧ inShiftLocal off e.ts_utc = true ∧
      bucketIdx off e.ts_utc = hix.toNat := by
  simp only [adjEvMatch, Bool.and_eq_true, beq_iff_eq, decide_eq_true_eq,
    utc_from_local, and_assoc] at h
  obtain ⟨hst, hrl, hsp, hk, hlo, hhi⟩ := h
  have hs : shift_start_loc = 300 := by decide
  have he : shift_end_loc = 1140 := by decide
  refine ⟨hst, hrl, hsp, hk, ?_, ?_, ?_⟩
  · simp only [evFilter, Bool.and_eq_true, beq_iff_eq, decide_eq_true_eq, utc_from_local]
    refine ⟨⟨⟨⟨hst, hrl⟩, hsp⟩, ?_⟩, ?_⟩ <;> omega
  · simp only [inShiftLocal, Bool.and_eq_true, decide_eq_true_eq, local_of_utc, hs, he]
    constructor <;> omega
  · simp only [bucketIdx, local_of_utc, hs]
    omega

/-- The synthetic record the add branch inserts matches the admin
hour-window filter of its own bucket. -/
theorem adjEvMatch_synthetic (off : Int) (st rl sp kind : String) (hix : Int) :
    adjEvMatch st rl sp kind (utc_from_local off (shift_start_loc + 60 * hix))
        (utc_from_local off (shift_start_loc + 60 * hix + 60))
        (Event.mk st rl sp kind (utc_from_local off (shift_start_loc + 60 * hix) + 1))
      = true := by
  simp [adjEvMatch, utc_from_local]
  omega

/-- Adding `n` copies of a record matching `p` and then deleting the `n`
newest `p`-matches also leaves every count disjoint from `p` unchanged. -/
theorem countP_add_remove_disjoint {α : Type} [DecidableEq α] (f : α → Int)
    (p q : α → Bool) (l : List α) (a : α) (n : Nat)
    (hqp : ∀ x, p x = true → q x = false) (hpa : p a = true) :
    ((l ++ List.replicate n a).diff
        ((sortDescBy f ((l ++ List.replicate n a).filter p)).take n)).countP q
      = l.countP q := by
  have hsub := takeNewest_subperm f p n (l ++ List.replicate n a)
  have hprop := takeNewest_prop f p n (l ++ List.replicate n a)
  have hVq : ((sortDescBy f ((l ++ List.replicate n a).filter p)).take n).countP q = 0 :=
    List.countP_eq_zero.2 fun x hx hqx => by
      have := hqp x (hprop x hx)
      rw [hqx] at this
      exact absurd this (by decide)
  have hLq : (l ++ List.replicate n a).countP q = l.countP q := by
    rw [List.countP_append, List.countP_replicate, if_neg (by simp [hqp a hpa])]
    omega
  rw [countP_diff_subperm q hsub, hVq, hLq]
  omega

/-! ## C7: add inserts exactly N records at bucket start + 1 minute -/

/-- C7: for every valid Adjust-hour add request with count `N` in `[1, 99]`,
exactly `N` new synthetic records are inserted, each with timestamp equal to
the target bucket's (UTC) start plus one minute, so every inserted record's
local time is `bucket_start + 1` and falls inside the target hour bucket —
never spread across the hour.  Both insertion paths are covered: an event
kind (`order`/`reject`/`muda`) appends `N` `Event` records, and a reason tag
(`reason:<label>`) appends `N` `ReasonEvent` records carrying the label after
the colon, both at the same synthetic timestamp. -/
theorem C7_add_inserts_exactly (off : Int) (st rl sp kind rkind : String) (c hix : Int)
    (events : List Event) (reasons : List ReasonEvent)
    (hst : st ≠ "") (hrl : rl ≠ "") (hsp4 : sp.length = 4)
    (hspd : sp.toList.all Char.isDigit = true)
    (hkind : kind = "order" ∨ kind = "reject" ∨ kind = "muda")
    (hrk : startsWithReason rkind = true)
    (hc : 1 ≤ c ∧ c ≤ 99) (hhix : 0 ≤ hix ∧ hix < 14) :
    (∃ msg, adjust_hour off true st rl sp kind "add" (some c) (some hix) events reasons
        = .panel (events ++ List.replicate c.toNat
              (Event.mk st rl sp kind
                (utc_from_local off (shift_start_loc + 60 * hix) + 1))) reasons msg ∧
      (events ++ List.replicate c.toNat
          (Event.mk st rl sp kind
            (utc_from_local off (shift_start_loc + 60 * hix) + 1))).length
        = events.length + c.toNat) ∧
    (∃ msg, adjust_hour off true st rl sp rkind "add" (some c) (some hix) events reasons
        = .panel events (reasons ++ List.replicate c.toNat
              (ReasonEvent.mk st rl sp (rkind.drop 7)
                (utc_from_local off (shift_start_loc + 60 * hix) + 1))) msg ∧
      (reasons ++ List.replicate c.toNat
          (ReasonEvent.mk st rl sp (rkind.drop 7)
            (utc_from_local off (shift_start_loc + 60 * hix) + 1))).length
        = reasons.length + c.toNat) ∧
    local_of_utc off (utc_from_local off (shift_start_loc + 60 * hix) + 1)
      = shift_start_loc + 60 * hix + 1 ∧
    shift_start_loc + 60 * hix
        ≤ local_of_utc off (utc_from_local off (shift_start_loc + 60 * hix) + 1) ∧
    local_of_utc off (utc_from_local off (shift_start_loc + 60 * hix) + 1)
      < shift_start_loc + 60 * hix + 60 := by
  have h1 := adjust_hour_add_eq off st rl sp kind c hix events reasons
    hst hrl hsp4 hspd hkind hhix
  have h2 := adjust_hour_reason_add_eq off st rl sp rkind c hix events reasons
    hst hrl hsp4 hspd hrk hhix
  rw [clampCount_eq_self hc.1 hc.2] at h1 h2
  refine ⟨⟨_, h1, by simp⟩, ⟨_, h2, by simp⟩, ?_, ?_, ?_⟩ <;>
  · simp only [local_of_utc, utc_from_local]
    omega

theorem C7_add_inserts_exactly_witness :
    (∃ msg, adjust_hour (-300) true "BTEn-1" "Shipper" "1234" "order" "add"
        (some 2) (some 1) [] []
        = .panel ([] ++ List.replicate (2 : Int).toNat
              (Event.mk "BTEn-1" "Shipper" "1234" "order"
                (utc_from_local (-300) (shift_start_loc + 60 * 1) + 1))) [] msg ∧
      (([] : List Event) ++ List.replicate (2 : Int).toNat
          (Event.mk "BTEn-1" "Shipper" "1234" "order"
            (utc_from_local (-300) (shift_start_loc + 60 * 1) + 1))).length
        = ([] : List Event).length + (2 : Int).toNat) ∧
    (∃ msg, adjust_hour (-300) true "BTEn-1" "Shipper" "1234" "reason:Damaged" "add"
        (some 2) (some 1) [] []
        = .panel [] ([] ++ List.replicate (2 : Int).toNat
              (ReasonEvent.mk "BTEn-1" "Shipper" "1234" ("reason:Damaged".drop 7)
                (utc_from_local (-300) (shift_start_loc + 60 * 1) + 1))) msg ∧
      (([] : List ReasonEvent) ++ List.replicate (2 : Int).toNat
          (ReasonEvent.mk "BTEn-1" "Shipper" "1234" ("reason:Damaged".drop 7)
            (utc_from_local (-300) (shift_start_loc + 60 * 1) + 1))).length
        = ([] : List ReasonEvent).length + (2 : Int).toNat) ∧
    local_of_utc (-300) (utc_from_local (-300) (shift_start_loc + 60 * 1) + 1)
      = shift_start_loc + 60 * 1 + 1 ∧
    shift_start_loc + 60 * 1
        ≤ local_of_utc (-300) (utc_from_local (-300) (shift_start_loc + 60 * 1) + 1) ∧
    local_of_utc (-300) (utc_from_local (-300) (shift_start_loc + 60 * 1) + 1)
      < shift_start_loc + 60 * 1 + 60 :=
  C7_add_inserts_exactly (-300) "BTEn-1" "Shipper" "1234" "order" "reason:Damaged" 2 1 [] []
    (by decide) (by decide) (by decide) (by decide) (Or.inl rfl) (by decide)
    ⟨by decide, by decide⟩ ⟨by decide, by decide⟩

/-! ## C5: add then remove round-trips the bucket count -/

/-- C5: for every key and bucket, executing Adjust-hour `add` with count `N`
and then Adjust-hour `remove` with the same key, bucket, kind and count `N`
returns the per-bucket count for that kind (the orders column for kind
`order`, the exceptions column for `reject`/`muda` — and in fact both
columns) of `today_rows_for` to the value it had before the add. -/
theorem C5_add_then_remove_roundtrip (off now : Int) (st rl sp kind : String)
    (c hix : Int) (events : List Event) (reasons : List ReasonEvent)
    (hst : st ≠ "") (hrl : rl ≠ "") (hsp4 : sp.length = 4)
    (hspd : sp.toList.all Char.isDigit = true)
    (hkind : kind = "order" ∨ kind = "reject" ∨ kind = "muda")
    (hhix : 0 ≤ hix ∧ hix < 14)
    (ev1 : List Event) (rs1 : List ReasonEvent) (msg1 : String)
    (h1 : adjust_hour off true st rl sp kind "add" (some c) (some hix) events reasons
        = .panel ev1 rs1 msg1)
    (ev2 : List Event) (rs2 : List ReasonEvent) (msg2 : String)
    (h2 : adjust_hour off true st rl sp kind "remove" (some c) (some hix) ev1 rs1
        = .panel ev2 rs2 msg2) :
    ((today_rows_for off now st rl sp ev2 rs2).1.getD hix.toNat ("", 0, 0, 0, 0, 0)).2.1
        = ((today_rows_for off now st rl sp events reasons).1.getD hix.toNat
            ("", 0, 0, 0, 0, 0)).2.1 ∧
      ((today_rows_for off now st rl sp ev2 rs2).1.getD hix.toNat
            ("", 0, 0, 0, 0, 0)).2.2.1
        = ((today_rows_for off now st rl sp events reasons).1.getD hix.toNat
            ("", 0, 0, 0, 0, 0)).2.2.1 := by
  have hidx : hix.toNat < 14 := by omega
  rw [adjust_hour_add_eq off st rl sp kind c hix events reasons
    hst hrl hsp4 hspd hkind hhix] at h1
  injection h1 with hA hR hM
  subst hA
  subst hR
  rw [adjust_hour_remove_eq off st rl sp kind c hix _ _
    hst hrl hsp4 hspd hkind hhix] at h2
  injection h2 with hA2 hR2 hM2
  subst hA2
  subst hR2
  rw [today_rows_orders off now st rl sp _ _ hix.toNat hidx,
    today_rows_orders off now st rl sp events reasons hix.toNat hidx,
    today_rows_exc off now st rl sp _ _ hix.toNat hidx,
    today_rows_exc off now st rl sp events reasons hix.toNat hidx]
  rcases hkind with rfl | rfl | rfl
  · constructor
    · apply countP_add_remove
      · intro e he
        obtain ⟨-, -, -, h4, h5, h6, h7⟩ :=
          adjEvMatch_decomp off st rl sp "order" hix hhix e he
        simp [cellOrder, h4, h5, h6, h7]
      · exact adjEvMatch_synthetic off st rl sp "order" hix
    · apply countP_add_remove_disjoint
      · intro e he
        obtain ⟨-, -, -, h4, -, -, -⟩ :=
          adjEvMatch_decomp off st rl sp "order" hix hhix e he
        simp [cellExc, isExcKind, h4]
      · exact adjEvMatch_synthetic off st rl sp "order" hix
  · constructor
    · apply countP_add_remove_disjoint
      · intro e he
        obtain ⟨-, -, -, h4, -, -, -⟩ :=
          adjEvMatch_decomp off st rl sp "reject" hix hhix e he
        simp [cellOrder, h4]
      · exact adjEvMatch_synthetic off st rl sp "reject" hix
    · apply countP_add_remove
      · intro e he
        obtain ⟨-, -, -, h4, h5, h6, h7⟩ :=
          adjEvMatch_decomp off st rl sp "reject" hix hhix e he
        simp [cellExc, isExcKind, h4, h5, h6, h7]
      · exact adjEvMatch_synthetic off st rl sp "reject" hix
  · constructor
    · apply countP_add_remove_disjoint
      · intro e he
        obtain ⟨-, -, -, h4, -, -, -⟩ :=
          adjEvMatch_decomp off st rl sp "muda" hix hhix e he
        simp [cellOrder, h4]
      · exact adjEvMatch_synthetic off st rl sp "muda" hix
    · apply countP_add_remove
      · intro e he
        obtain ⟨-, -, -, h4, h5, h6, h7⟩ :=
          adjEvMatch_decomp off st rl sp "muda" hix hhix e he
        simp [cellExc, isExcKind, h4, h5, h6, h7]
      · exact adjEvMatch_synthetic off st rl sp "muda" hix

theorem C5_add_then_remove_roundtrip_witness :
    ((today_rows_for (-300) 390 "BTEn-1" "Shipper" "1234"
          [Event.mk "BTEn-1" "Shipper" "1234" "order" 601] []).1.getD (0 : Int).toNat
          ("", 0, 0, 0, 0, 0)).2.1
        = ((today_rows_for (-300) 390 "BTEn-1" "Shipper" "1234"
          [Event.mk "BTEn-1" "Shipper" "1234" "order" 630] []).1.getD (0 : Int).toNat
          ("", 0, 0, 0, 0, 0)).2.1 ∧
      ((today_rows_for (-300) 390 "BTEn-1" "Shipper" "1234"
          [Event.mk "BTEn-1" "Shipper" "1234" "order" 601] []).1.getD (0 : Int).toNat
          ("", 0, 0, 0, 0, 0)).2.2.1
        = ((today_rows_for (-300) 390 "BTEn-1" "Shipper" "1234"
          [Event.mk "BTEn-1" "Shipper" "1234" "order" 630] []).1.getD (0 : Int).toNat
          ("", 0, 0, 0, 0, 0)).2.2.1 :=
  C5_add_then_remove_roundtrip (-300) 390 "BTEn-1" "Shipper" "1234" "order" 1 0
    [Event.mk "BTEn-1" "Shipper" "1234" "order" 630] []
    (by decide) (by decide) (by decide) (by decide) (Or.inl rfl)
    ⟨by decide, by decide⟩
    [Event.mk "BTEn-1" "Shipper" "1234" "order" 630,
     Event.mk "BTEn-1" "Shipper" "1234" "order" 601] []
    "Added 1 order(s) in 5:00 AM – 6:00 AM."
    (by simp only [adjust_hour, fixed_hour_labels_eval]; decide)
    [Event.mk "BTEn-1" "Shipper" "1234" "order" 601] []
    "Removed 1 order(s) in 5:00 AM – 6:00 AM."
    (by simp only [adjust_hour, fixed_hour_labels_eval]; decide)

/-! ## C6: remove with count exceeding the available matches -/

/-- C6: for every Adjust-hour remove request whose count exceeds the number
of records matching the key/kind in the target bucket, exactly the available
matching records are deleted (selected newest-first from that bucket only),
the operation still renders the panel (partial success, never an error), no
record outside the match set is touched, and the resulting per-bucket count
is `0 = available - available` — counts are naturals and never go negative.
The first conjunct covers order/reject/muda removals on the `Event` table,
the second reason-tag removals on the `ReasonEvent` table. -/
theorem C6_remove_more_than_available :
    (∀ (off : Int) (st rl sp kind : String) (c hix : Int) (events : List Event)
        (reasons : List ReasonEvent),
      st ≠ "" → rl ≠ "" → sp.length = 4 → sp.toList.all Char.isDigit = true →
      (kind = "order" ∨ kind = "reject" ∨ kind = "muda") →
      0 ≤ hix → hix < 14 →
      events.countP (adjEvMatch st rl sp kind
          (utc_from_local off (shift_start_loc + 60 * hix))
          (utc_from_local off (shift_start_loc + 60 * hix + 60))) < (clampCount c).toNat →
      ∃ ev2 msg,
        adjust_hour off true st rl sp kind "remove" (some c) (some hix) events reasons
            = .panel ev2 reasons msg ∧
          ev2.countP (adjEvMatch st rl sp kind
            (utc_from_local off (shift_start_loc + 60 * hix))
            (utc_from_local off (shift_start_loc + 60 * hix + 60))) = 0 ∧
          ev2.length = events.length - events.countP (adjEvMatch st rl sp kind
            (utc_from_local off (shift_start_loc + 60 * hix))
            (utc_from_local off (shift_start_loc + 60 * hix + 60))) ∧
          (∀ q : Event → Bool,
            (∀ x, q x = true → adjEvMatch st rl sp kind
              (utc_from_local off (shift_start_loc + 60 * hix))
              (utc_from_local off (shift_start_loc + 60 * hix + 60)) x = false) →
            ev2.countP q = events.countP q)) ∧
    (∀ (off : Int) (st rl sp kind : String) (c hix : Int) (events : List Event)
        (reasons : List ReasonEvent),
      st ≠ "" → rl ≠ "" → sp.length = 4 → sp.toList.all Char.isDigit = true →
      startsWithReason kind = true →
      0 ≤ hix → hix < 14 →
      reasons.countP (adjRsMatch st rl sp (kind.drop 7)
          (utc_from_local off (shift_start_loc + 60 * hix))
          (utc_from_local off (shift_start_loc + 60 * hix + 60))) < (clampCount c).toNat →
      ∃ rs2 msg,
        adjust_hour off true st rl sp kind "remove" (some c) (some hix) events reasons
            = .panel events rs2 msg ∧
          rs2.countP (adjRsMatch st rl sp (kind.drop 7)
            (utc_from_local off (shift_start_loc + 60 * hix))
            (utc_from_local off (shift_start_loc + 60 * hix + 60))) = 0 ∧
          rs2.length = reasons.length - reasons.countP (adjRsMatch st rl sp (kind.drop 7)
            (utc_from_local off (shift_start_loc + 60 * hix))
            (utc_from_local off (shift_start_loc + 60 * hix + 60))) ∧
          (∀ q : ReasonEvent → Bool,
            (∀ x, q x = true → adjRsMatch st rl sp (kind.drop 7)
              (utc_from_local off (shift_start_loc + 60 * hix))
              (utc_from_local off (shift_start_loc + 60 * hix + 60)) x = false) →
            rs2.countP q = reasons.countP q)) := by
  constructor
  · intro off st rl sp kind c hix events reasons hst hrl hsp4 hspd hkind hhix1 hhix2 hm
    rw [adjust_hour_remove_eq off st rl sp kind c hix events reasons
      hst hrl hsp4 hspd hkind ⟨hhix1, hhix2⟩]
    obtain ⟨hVlen, hP, hL, hq⟩ := remove_newest_spec (fun e => e.ts_utc)
      (adjEvMatch st rl sp kind
        (utc_from_local off (shift_start_loc + 60 * hix))
        (utc_from_local off (shift_start_loc + 60 * hix + 60)))
      (clampCount c).toNat events
    refine ⟨_, _, rfl, ?_, ?_, hq⟩
    · rw [hP]; omega
    · rw [hL]; omega
  · intro off st rl sp kind c hix events reasons hst hrl hsp4 hspd hk hhix1 hhix2 hm
    rw [adjust_hour_reason_remove_eq off st rl sp kind c hix events reasons
      hst hrl hsp4 hspd hk ⟨hhix1, hhix2⟩]
    obtain ⟨hVlen, hP, hL, hq⟩ := remove_newest_spec (fun r => r.ts_utc)
      (adjRsMatch st rl sp (kind.drop 7)
        (utc_from_local off (shift_start_loc + 60 * hix))
        (utc_from_local off (shift_start_loc + 60 * hix + 60)))
      (clampCount c).toNat reasons
    refine ⟨_, _, rfl, ?_, ?_, hq⟩
    · rw [hP]; omega
    · rw [hL]; omega

theorem C6_remove_more_than_available_witness :
    ∃ ev2 msg,
      adjust_hour (-300) true "BTEn-1" "Shipper" "1234" "order" "remove"
          (some 5) (some 0)
          [Event.mk "BTEn-1" "Shipper" "1234" "order" 630,
           Event.mk "BTEn-1" "Shipper" "1234" "order" 601,
           Event.mk "BTEn-1" "Shipper" "1234" "order" 700] []
          = .panel ev2 [] msg ∧
        ev2.countP (adjEvMatch "BTEn-1" "Shipper" "1234" "order"
          (utc_from_local (-300) (shift_start_loc + 60 * 0))
          (utc_from_local (-300) (shift_start_loc + 60 * 0 + 60))) = 0 ∧
        ev2.length = ([Event.mk "BTEn-1" "Shipper" "1234" "order" 630,
           Event.mk "BTEn-1" "Shipper" "1234" "order" 601,
           Event.mk "BTEn-1" "Shipper" "1234" "order" 700] : List Event).length
          - ([Event.mk "BTEn-1" "Shipper" "1234" "order" 630,
           Event.mk "BTEn-1" "Shipper" "1234" "order" 601,
           Event.mk "BTEn-1" "Shipper" "1234" "order" 700] : List Event).countP
            (adjEvMatch "BTEn-1" "Shipper" "1234" "order"
              (utc_from_local (-300) (shift_start_loc + 60 * 0))
              (utc_from_local (-300) (shift_start_loc + 60 * 0 + 60))) ∧
        (∀ q : Event → Bool,
          (∀ x, q x = true → adjEvMatch "BTEn-1" "Shipper" "1234" "order"
            (utc_from_local (-300) (shift_start_loc + 60 * 0))
            (utc_from_local (-300) (shift_start_loc + 60 * 0 + 60)) x = false) →
          ev2.countP q = ([Event.mk "BTEn-1" "Shipper" "1234" "order" 630,
           Event.mk "BTEn-1" "Shipper" "1234" "order" 601,
           Event.mk "BTEn-1" "Shipper" "1234" "order" 700] : List Event).countP q) :=
  C6_remove_more_than_available.1 (-300) "BTEn-1" "Shipper" "1234" "order" 5 0
    [Event.mk "BTEn-1" "Shipper" "1234" "order" 630,
     Event.mk "BTEn-1" "Shipper" "1234" "order" 601,
     Event.mk "BTEn-1" "Shipper" "1234" "order" 700] []
    (by decide) (by decide) (by decide) (by decide) (Or.inl rfl)
    (by decide) (by decide) (by decide)

/-! ## C4: input validation of Adjust-hour -/

/-- C4 counterexample: the claim requires a reason tag to carry one of the
enumerated reason labels to be valid, and any invalid input to be a silent
no-op redirect with no mutation.  But `adjust_hour` only checks the
`reason:` prefix: the request `kind = "reason:Bogus"` — whose label `Bogus`
is not in `REASONS` — is accepted and inserts a `ReasonEvent` with reason
`Bogus` instead of redirecting. -/
theorem C4_reason_label_counterexample :
    ("Bogus" ∉ REASONS) ∧
      adjust_hour (-300) true "BTEn-1" "Shipper" "1234" "reason:Bogus" "add"
          (some 1) (some 0) [] []
        = .panel [] [ReasonEvent.mk "BTEn-1" "Shipper" "1234" "Bogus" 601]
            "Added 1 reason(s) 'Bogus' in 5:00 AM – 6:00 AM." :=
  ⟨by decide, by simp only [adjust_hour, fixed_hour_labels_eval]; decide⟩

/-- C4 (amended): for every Adjust-hour request, all inputs are validated
before any store access: the request is a silent no-op redirect (no store
mutation — `redirect` carries no store state) whenever the caller is not
authenticated, the count or hour fields fail integer parsing, station, role
or stamp is empty, the stamp is not exactly 4 digits, the kind is neither a
known event kind `{order, reject, muda}` nor a tag starting with `reason:`
(the reason label itself is NOT validated against the enumerated reason
list), the action is not add/remove, or the hour index is outside the day's
bucket range; and the count of every accepted request is clamped into
`[1, 99]`. -/
theorem C4_validation_amended :
    (∀ (off : Int) (authed : Bool) (station role stamp kind action : String)
        (count_p hour_p : Option Int) (events : List Event)
        (reasons : List ReasonEvent),
      (authed = false ∨ count_p = none ∨ hour_p = none ∨
        station = "" ∨ role = "" ∨ stamp = "" ∨ ¬(stamp.length = 4) ∨
        stamp.toList.all Char.isDigit = false ∨
        (kind ≠ "order" ∧ kind ≠ "reject" ∧ kind ≠ "muda" ∧
          startsWithReason kind = false) ∨
        (action ≠ "add" ∧ action ≠ "remove") ∨
        (∃ hx, hour_p = some hx ∧ ¬(0 ≤ hx ∧ hx < 14))) →
      adjust_hour off authed station role stamp kind action count_p hour_p
          events reasons = .redirect) ∧
    (∀ c : Int, 1 ≤ clampCount c ∧ clampCount c ≤ 99) := by
  constructor
  · intro off authed station role stamp kind action count_p hour_p events reasons hinv
    rcases hinv with h | h | h | h | h | h | h | h | ⟨h1, h2, h3, h4⟩ | ⟨h1, h2⟩ | ⟨hx, hsome, hout⟩
    · subst h; simp [adjust_hour]
    · subst h; cases authed <;> simp [adjust_hour]
    · subst h; cases authed <;> rcases count_p with _ | c <;> simp [adjust_hour]
    · subst h; cases authed <;> rcases count_p with _ | c <;>
        rcases hour_p with _ | hx <;> simp [adjust_hour]
    · subst h; cases authed <;> rcases count_p with _ | c <;>
        rcases hour_p with _ | hx <;> simp [adjust_hour]
    · subst h; cases authed <;> rcases count_p with _ | c <;>
        rcases hour_p with _ | hx <;> simp [adjust_hour]
    · cases authed <;> rcases count_p with _ | c <;>
        rcases hour_p with _ | hx <;> simp [adjust_hour, h]
    · cases authed <;> rcases count_p with _ | c <;>
        rcases hour_p with _ | hx <;> simp [adjust_hour, h, -List.all_eq_true] <;>
        exact fun _ _ _ _ hall _ _ _ _ => absurd (List.all_eq_true.2 hall)
          (by have hd : stamp.data.all Char.isDigit = false := h; simp [hd])
    · cases authed <;> rcases count_p with _ | c <;>
        rcases hour_p with _ | hx <;> simp [adjust_hour, h1, h2, h3, h4]
    · cases authed <;> rcases count_p with _ | c <;>
        rcases hour_p with _ | hx <;> simp [adjust_hour, h1, h2]
    · subst hsome
      cases authed <;> rcases count_p with _ | c <;>
        simp only [adjust_hour, Bool.not_true, Bool.not_false, if_true] <;>
        try rfl
      rcases (by omega : ¬(0 ≤ hx) ∨ ¬(hx < (14 : Int))) with hb | hb <;>
        simp [fixed_hour_labels_length, hb]
  · intro c
    simp only [clampCount]
    omega

theorem C4_validation_amended_witness :
    adjust_hour (-300) true "BTEn-1" "Shipper" "12" "order" "add"
        (some 1) (some 0) [] [] = .redirect ∧
      (1 ≤ clampCount 150 ∧ clampCount 150 ≤ 99) :=
  ⟨C4_validation_amended.1 (-300) true "BTEn-1" "Shipper" "12" "order" "add"
      (some 1) (some 0) [] []
      (Or.inr (Or.inr (Or.inr (Or.inr (Or.inr (Or.inr (Or.inl (by decide)))))))),
   C4_validation_amended.2 150⟩

/-! ## C3: Delete-latest deletes once, then reports nothing found -/

/-- C3 (against the spec-modelled `delete_latest`, §4.4 — the operation has
no implementation under `src/`): Delete-latest resolves today's shift
window, orders the matching records newest-first within it, deletes at most
the single newest match and returns it as a preview, and reports "nothing
found" (`none`) when no record matches.  When exactly one record matches,
calling it twice yields "deleted" then "nothing found": the first call
removes exactly one record, the second call finds nothing, changes nothing,
and no double delete or error occurs. -/
theorem C3_delete_latest_twice (off : Int) (st rl sp kind : String)
    (events : List Event)
    (h : events.countP (dlMatch off st rl sp kind) = 1) :
    (delete_latest off st rl sp kind events).2.isSome = true ∧
      (delete_latest off st rl sp kind events).1.countP
          (dlMatch off st rl sp kind) = 0 ∧
      (delete_latest off st rl sp kind events).1.length + 1 = events.length ∧
      delete_latest off st rl sp kind ((delete_latest off st rl sp kind events).1)
        = ((delete_latest off st rl sp kind events).1, none) := by
  have hflen : (events.filter (dlMatch off st rl sp kind)).length = 1 := by
    rw [← List.countP_eq_length_filter]
    exact h
  obtain ⟨e, hfe⟩ : ∃ e, events.filter (dlMatch off st rl sp kind) = [e] := by
    rcases hf : events.filter (dlMatch off st rl sp kind) with - | ⟨e, t⟩
    · rw [hf] at hflen
      simp at hflen
    · rw [hf] at hflen
      simp only [List.length_cons] at hflen
      have ht : t = [] := List.length_eq_zero.1 (by omega)
      exact ⟨e, by rw [ht]⟩
  have hmem : e ∈ events := List.mem_of_mem_filter (hfe ▸ List.mem_singleton_self e)
  have hpe : dlMatch off st rl sp kind e = true :=
    List.of_mem_filter (hfe ▸ List.mem_singleton_self e)
  have hdel : delete_latest off st rl sp kind events = (events.erase e, some e) := by
    simp [delete_latest, hfe, sortDescBy, insertDescBy]
  have herase : events.erase e = events.diff [e] := by
    rw [List.diff_cons, List.diff_nil]
  have hsub : List.Subperm [e] events := by
    apply Multiset.coe_le.1
    rw [show ((([e] : List Event) : Multiset Event)) = ({e} : Multiset Event) from rfl]
    exact Multiset.singleton_le.2 hmem
  have hcount0 : (events.erase e).countP (dlMatch off st rl sp kind) = 0 := by
    rw [herase, countP_diff_subperm _ hsub, h]
    simp [List.countP_cons, hpe]
  have hlen : (events.erase e).length + 1 = events.length := by
    rw [herase, length_diff_subperm hsub]
    have : 0 < events.length := List.length_pos_of_mem hmem
    simp only [List.length_cons, List.length_nil]
    omega
  have hfilter2 : (events.erase e).filter (dlMatch off st rl sp kind) = [] :=
    List.length_eq_zero.1 (by rw [← List.countP_eq_length_filter]; exact hcount0)
  refine ⟨by rw [hdel]; rfl, by rw [hdel]; exact hcount0, by rw [hdel]; exact hlen, ?_⟩
  rw [hdel]
  simp [delete_latest, hfilter2, sortDescBy]

theorem C3_delete_latest_twice_witness :
    (delete_latest (-300) "BTEn-1" "Shipper" "1234" "order"
        [Event.mk "BTEn-1" "Shipper" "1234" "order" 690]).2.isSome = true ∧
      (delete_latest (-300) "BTEn-1" "Shipper" "1234" "order"
          [Event.mk "BTEn-1" "Shipper" "1234" "order" 690]).1.countP
          (dlMatch (-300) "BTEn-1" "Shipper" "1234" "order") = 0 ∧
      (delete_latest (-300) "BTEn-1" "Shipper" "1234" "order"
          [Event.mk "BTEn-1" "Shipper" "1234" "order" 690]).1.length + 1
        = ([Event.mk "BTEn-1" "Shipper" "1234" "order" 690] : List Event).length ∧
      delete_latest (-300) "BTEn-1" "Shipper" "1234" "order"
          ((delete_latest (-300) "BTEn-1" "Shipper" "1234" "order"
            [Event.mk "BTEn-1" "Shipper" "1234" "order" 690]).1)
        = ((delete_latest (-300) "BTEn-1" "Shipper" "1234" "order"
            [Event.mk "BTEn-1" "Shipper" "1234" "order" 690]).1, none) :=
  C3_delete_latest_twice (-300) "BTEn-1" "Shipper" "1234" "order"
    [Event.mk "BTEn-1" "Shipper" "1234" "order" 690] (by decide)
